import Mathlib

/-!
mediamtx: playback seek/mux engine and MPEG-TS segment writer.

Shallow embedding of `internal/playback/on_get.go` and
`internal/record/format_mpegts_segment.go`.

Every call that leaves the two source files (the filesystem, the fMP4 helpers,
the muxer, the HTTP context, the recording agent) is answered by an environment
record, and every such call is appended, with its arguments and its answer, to
a trace.  The functions of the two files are total functions from an
environment and their Go arguments to a trace and an exit.
-/

namespace Go

/-- Go `error` values that are not nil. -/
abbrev Err := String

/-- An open `*os.File`, named by its handle. -/
abbrev File := Nat

/-- Go `time.Duration`: a count of nanoseconds held in an int64. -/
abbrev Duration := Int

/-- Smallest `time.Duration`. -/
def minDuration : Duration := -(2 ^ 63)

/-- Largest `time.Duration`. -/
def maxDuration : Duration := 2 ^ 63 - 1

/-- Two-complement wrap of an integer into the int64 range. -/
def wrap64 (x : Int) : Int := (x + 2 ^ 63) % 2 ^ 64 - 2 ^ 63

/-- Go `a - b` on two `time.Duration` values (int64 subtraction). -/
def Duration.sub (a b : Duration) : Duration := wrap64 (a - b)

/-- Go `time.Time` without a monotonic reading: an instant, as nanoseconds since
the Unix epoch, and the offset in seconds east of UTC of its location. -/
structure Time where
  unixNano : Int
  offset : Int
deriving DecidableEq, Repr

/-- Go `t.Sub(u)`: the difference of the two instants, saturated to the range
of `time.Duration`. -/
def Time.Sub (t u : Time) : Duration :=
  let d := t.unixNano - u.unixNano
  if d < minDuration then minDuration
  else if maxDuration < d then maxDuration
  else d

/-- Go `t.Add(d)`: the instant moves by `d`, the location is kept.  The int64
seconds of the Go representation cover every instant within 292e9 years of the
epoch, so the sum does not wrap. -/
def Time.Add (t : Time) (d : Duration) : Time :=
  { t with unixNano := t.unixNano + d }

/-- A Go result pair `(v, err)`: the value when `err` is nil, the error
otherwise. -/
inductive Res (α : Type) where
  | ok (v : α)
  | error (err : Err)
deriving DecidableEq, Repr

/-- How a Go function call ends: it returns its `error` result (`none` is nil),
or it panics. -/
inductive Exit where
  | returned (err : Option Err)
  | panicked
deriving DecidableEq, Repr

/-- Raw bytes of a Go `[]byte`. -/
abbrev Bytes := List Nat

/-- Go `time.UTC`, as the offset of the location. -/
def UTC : Int := 0

/-- Year, month and day of the proleptic Gregorian calendar for a count of days
since 1970-01-01. -/
def civilFromDays (days : Int) : Int × Int × Int :=
  let z := days + 719468
  let era := z / 146097
  let doe := z - era * 146097
  let yoe := (doe - doe / 1460 + doe / 36524 - doe / 146096) / 365
  let doy := doe - (365 * yoe + yoe / 4 - yoe / 100)
  let mp := (5 * doy + 2) / 153
  let d := doy - (153 * mp + 2) / 5 + 1
  let m := if mp < 10 then mp + 3 else mp - 9
  let y := yoe + era * 400
  (if m ≤ 2 then y + 1 else y, m, d)

/-- Count of days since 1970-01-01 of a date of the proleptic Gregorian calendar
whose month is in 1..12. -/
def daysFromCivil (year month day : Int) : Int :=
  let y := if month ≤ 2 then year - 1 else year
  let era := y / 400
  let yoe := y - era * 400
  let mp := if 2 < month then month - 3 else month + 9
  let doy := (153 * mp + 2) / 5 + day - 1
  let doe := yoe * 365 + yoe / 4 - yoe / 100 + doy
  era * 146097 + doe - 719468

/-- Nanoseconds since 1970-01-01 00:00:00 read on the wall clock of the location
of `t`. -/
def Time.abs (t : Time) : Int := t.unixNano + t.offset * 1000000000

/-- Go `t.Date()`: year, month and day in the location of `t`. -/
def Time.Date (t : Time) : Int × Int × Int :=
  civilFromDays (t.abs / 86400000000000)

/-- Go `t.Clock()`: hour, minute and second in the location of `t`. -/
def Time.Clock (t : Time) : Int × Int × Int :=
  let s := t.abs % 86400000000000 / 1000000000
  (s / 3600, s % 3600 / 60, s % 60)

/-- Go `t.Nanosecond()`. -/
def Time.Nanosecond (t : Time) : Int := t.abs % 1000000000

/-- Go `time.Date(year, month, day, hour, min, sec, nsec, loc)` for a location of
fixed offset `loc`: values out of their range are carried over. -/
def timeDate (year month day hour min sec nsec : Int) (loc : Int) : Time :=
  let y := year + (month - 1) / 12
  let m := (month - 1) % 12 + 1
  let days := daysFromCivil y m 1 + (day - 1)
  { unixNano := days * 86400000000000 + hour * 3600000000000 + min * 60000000000
      + sec * 1000000000 + nsec - loc * 1000000000,
    offset := loc }

end Go

namespace Playback

open Go

/-- Parsed `*fmp4.Init` of a segment, named by an identifier. -/
abbrev Init := Nat

/-- Go `conf.RecordFormat`. -/
inductive RecordFormat where
  | fmp4
  | mpegts
deriving DecidableEq, Repr

/-- Go `Segment`. -/
structure Segment where
  Fpath : String
  Start : Time
deriving DecidableEq, Repr

/-- One call made by `seekAndMux`, with its arguments and its answer. -/
inductive Call where
  | osOpen (path : String) (r : Res File)
  | segmentFMP4ReadInit (f : File) (r : Res Init)
  | writeInit (init : Init)
  | segmentFMP4SeekAndMuxParts (f : File) (segmentStartOffset duration : Duration)
      (init : Init) (r : Res Duration)
  | segmentFMP4MuxParts (f : File) (segmentStartOffset duration : Duration)
      (init : Init) (r : Res Duration)
  | flush (r : Option Err)
  | fileClose (f : File)
deriving DecidableEq, Repr

/-- Answers of the collaborators of `seekAndMux`.  `osOpen i`,
`segmentFMP4ReadInit i` and `segmentFMP4MuxParts i` are the answers to the
calls made for `segments[i]`; `segmentFMP4SeekAndMuxParts` and `flush` are
called at most once.  `segmentFMP4CanBeConcatenated` is a function of its four
arguments. -/
structure MuxEnv where
  osOpen : Nat → Res File
  segmentFMP4ReadInit : Nat → Res Init
  segmentFMP4SeekAndMuxParts : Res Duration
  segmentFMP4MuxParts : Nat → Res Duration
  segmentFMP4CanBeConcatenated : Init → Time → Init → Time → Bool
  flush : Option Err

/-- A function body that has run up to its return statement: the calls made, the
files whose `defer f.Close()` was registered (oldest first), and the exit. -/
structure Body where
  calls : List Call
  deferred : List File
  exit : Exit
deriving DecidableEq, Repr

/-- Lines 116-121 of `on_get.go`: `err = m.flush()`, returned as it is. -/
def flushAndReturn (env : MuxEnv) : Body :=
  { calls := [Call.flush env.flush], deferred := [], exit := Exit.returned env.flush }

/-- Lines 88-121 of `on_get.go`: the loop over `segments[1:]`, started at
`segments[i]`, followed by the flush.  A `break` leaves the loop for the
flush. -/
def segmentsLoop (env : MuxEnv) (start : Time) (duration : Duration) (firstInit : Init) :
    Nat → List Segment → Time → Body
  | _, [], _ => flushAndReturn env
  | i, seg :: rest, segmentEnd =>
    match env.osOpen i with
    | Res.error err =>
      { calls := [Call.osOpen seg.Fpath (Res.error err)], deferred := [],
        exit := Exit.returned (some err) }
    | Res.ok f =>
      match env.segmentFMP4ReadInit i with
      | Res.error err =>
        { calls := [Call.osOpen seg.Fpath (Res.ok f),
                    Call.segmentFMP4ReadInit f (Res.error err)],
          deferred := [f], exit := Exit.returned (some err) }
      | Res.ok init =>
        if !env.segmentFMP4CanBeConcatenated firstInit segmentEnd init seg.Start then
          let b := flushAndReturn env
          { calls := [Call.osOpen seg.Fpath (Res.ok f),
                      Call.segmentFMP4ReadInit f (Res.ok init)] ++ b.calls,
            deferred := f :: b.deferred, exit := b.exit }
        else
          let segmentStartOffset := seg.Start.Sub start
          match env.segmentFMP4MuxParts i with
          | Res.error err =>
            { calls := [Call.osOpen seg.Fpath (Res.ok f),
                        Call.segmentFMP4ReadInit f (Res.ok init),
                        Call.segmentFMP4MuxParts f segmentStartOffset duration firstInit
                          (Res.error err)],
              deferred := [f], exit := Exit.returned (some err) }
          | Res.ok segmentMaxElapsed =>
            let b := segmentsLoop env start duration firstInit (i + 1) rest
              (start.Add segmentMaxElapsed)
            { calls := [Call.osOpen seg.Fpath (Res.ok f),
                        Call.segmentFMP4ReadInit f (Res.ok init),
                        Call.segmentFMP4MuxParts f segmentStartOffset duration firstInit
                          (Res.ok segmentMaxElapsed)] ++ b.calls,
              deferred := f :: b.deferred, exit := b.exit }

/-- Body of `seekAndMux` (lines 57-124 of `on_get.go`) up to its return
statement.  `segments[0]` on an empty slice panics before any call.  The
`fmt.Printf` lines write to standard output only and are left out. -/
def seekAndMuxBody (env : MuxEnv) (recordFormat : RecordFormat) (segments : List Segment)
    (start : Time) (duration : Duration) : Body :=
  match recordFormat with
  | RecordFormat.mpegts =>
    { calls := [], deferred := [],
      exit := Exit.returned (some "MPEG-TS format is not supported yet") }
  | RecordFormat.fmp4 =>
    match segments with
    | [] => { calls := [], deferred := [], exit := Exit.panicked }
    | seg0 :: rest =>
      match env.osOpen 0 with
      | Res.error err =>
        { calls := [Call.osOpen seg0.Fpath (Res.error err)], deferred := [],
          exit := Exit.returned (some err) }
      | Res.ok f =>
        match env.segmentFMP4ReadInit 0 with
        | Res.error err =>
          { calls := [Call.osOpen seg0.Fpath (Res.ok f),
                      Call.segmentFMP4ReadInit f (Res.error err)],
            deferred := [f], exit := Exit.returned (some err) }
        | Res.ok firstInit =>
          let segmentStartOffset := start.Sub seg0.Start
          match env.segmentFMP4SeekAndMuxParts with
          | Res.error err =>
            { calls := [Call.osOpen seg0.Fpath (Res.ok f),
                        Call.segmentFMP4ReadInit f (Res.ok firstInit),
                        Call.writeInit firstInit,
                        Call.segmentFMP4SeekAndMuxParts f segmentStartOffset duration firstInit
                          (Res.error err)],
              deferred := [f], exit := Exit.returned (some err) }
          | Res.ok segmentMaxElapsed =>
            let b := segmentsLoop env start duration firstInit 1 rest
              (start.Add segmentMaxElapsed)
            { calls := [Call.osOpen seg0.Fpath (Res.ok f),
                        Call.segmentFMP4ReadInit f (Res.ok firstInit),
                        Call.writeInit firstInit,
                        Call.segmentFMP4SeekAndMuxParts f segmentStartOffset duration firstInit
                          (Res.ok segmentMaxElapsed)] ++ b.calls,
              deferred := f :: b.deferred, exit := b.exit }

/-- A finished call of `seekAndMux`: every call made, in order, and the exit. -/
structure Run where
  calls : List Call
  exit : Exit
deriving DecidableEq, Repr

/-- Go `seekAndMux`: the body, then the deferred `f.Close()` calls, newest
first. -/
def seekAndMux (env : MuxEnv) (recordFormat : RecordFormat) (segments : List Segment)
    (start : Time) (duration : Duration) : Run :=
  let b := seekAndMuxBody env recordFormat segments start duration
  { calls := b.calls ++ b.deferred.reverse.map Call.fileClose, exit := b.exit }

/-- The two mux steps: `segmentFMP4SeekAndMuxParts` and `segmentFMP4MuxParts`. -/
def Call.isMuxStep : Call → Bool
  | Call.segmentFMP4SeekAndMuxParts _ _ _ _ _ => true
  | Call.segmentFMP4MuxParts _ _ _ _ _ => true
  | _ => false

/-- Calls that reach the muxer `m`: `writeInit`, the two mux steps, `flush`. -/
def Call.isMuxerCall : Call → Bool
  | Call.writeInit _ => true
  | Call.segmentFMP4SeekAndMuxParts _ _ _ _ _ => true
  | Call.segmentFMP4MuxParts _ _ _ _ _ => true
  | Call.flush _ => true
  | _ => false

/-- Calls of `m.flush()`. -/
def Call.isFlush : Call → Bool
  | Call.flush _ => true
  | _ => false

/-- The path of an `os.Open` call. -/
def Call.openedPath : Call → Option String
  | Call.osOpen path _ => some path
  | _ => none

/-- The calls of one loop iteration for `segments[i] = seg` in which the open,
the init parse and the mux step answer `F i`, `I i` and `E i`. -/
def okStep (start : Time) (duration : Duration) (firstInit : Init)
    (F : Nat → File) (I : Nat → Init) (E : Nat → Duration) (i : Nat) (seg : Segment) :
    List Call :=
  [Call.osOpen seg.Fpath (Res.ok (F i)),
   Call.segmentFMP4ReadInit (F i) (Res.ok (I i)),
   Call.segmentFMP4MuxParts (F i) (seg.Start.Sub start) duration firstInit (Res.ok (E i))]

/-- The calls of successive loop iterations, the first one for `segments[i]`. -/
def okSteps (start : Time) (duration : Duration) (firstInit : Init)
    (F : Nat → File) (I : Nat → Init) (E : Nat → Duration) : Nat → List Segment → List Call
  | _, [] => []
  | i, seg :: rest =>
    okStep start duration firstInit F I E i seg
      ++ okSteps start duration firstInit F I E (i + 1) rest

/-- The mux step of a later segment `p.2 = segments[p.1]` that answers `E p.1`. -/
def laterMuxStep (start : Time) (duration : Duration) (firstInit : Init)
    (F : Nat → File) (E : Nat → Duration) (p : Nat × Segment) : Call :=
  Call.segmentFMP4MuxParts (F p.1) (p.2.Start.Sub start) duration firstInit (Res.ok (E p.1))

/-- The error of a failed open, init parse or mux step. -/
def Call.stepError : Call → Option Err
  | Call.osOpen _ (Res.error err) => some err
  | Call.segmentFMP4ReadInit _ (Res.error err) => some err
  | Call.segmentFMP4SeekAndMuxParts _ _ _ _ (Res.error err) => some err
  | Call.segmentFMP4MuxParts _ _ _ _ (Res.error err) => some err
  | _ => none

/-- The maximum duration handed to a mux step. -/
def Call.handedDuration : Call → Option Duration
  | Call.segmentFMP4SeekAndMuxParts _ _ duration _ _ => some duration
  | Call.segmentFMP4MuxParts _ _ duration _ _ => some duration
  | _ => none

/-- Calls and exit of a body in which no open, init parse or mux step failed, or
in which the last call is the only such failure and its error is returned. -/
def StopsAtFailure (calls : List Call) (exit : Exit) : Prop :=
  (∀ c ∈ calls, c.stepError = none) ∨
  ∃ good bad err, calls = good ++ [bad] ∧ (∀ c ∈ good, c.stepError = none) ∧
    bad.stepError = some err ∧ exit = Exit.returned (some err)

/-- Example environment: every call succeeds; `segments[i]` opens as file
`10 + i`; `segments[2]` has init 8 and every other segment init 7; the mux step of
`segments[i]` reports `5 * (i + 1)` seconds; two segments can be concatenated
when their inits are equal. -/
def exampleEnv : MuxEnv :=
  { osOpen := fun i => Res.ok (10 + i)
    segmentFMP4ReadInit := fun i => Res.ok (if i = 2 then 8 else 7)
    segmentFMP4SeekAndMuxParts := Res.ok 5000000000
    segmentFMP4MuxParts := fun i => Res.ok (5000000000 * (i + 1))
    segmentFMP4CanBeConcatenated := fun a _ b _ => a == b
    flush := none }

/-- Example environment that differs from `exampleEnv` in the compatibility test,
which always passes. -/
def exampleEnvCompatible : MuxEnv :=
  { exampleEnv with segmentFMP4CanBeConcatenated := fun _ _ _ _ => true }

/-- Example environment that differs from `exampleEnv` in the open of
`segments[1]`, which fails. -/
def exampleEnvOpenFails : MuxEnv :=
  { exampleEnv with
    osOpen := fun i => if i = 1 then Res.error "no such file" else Res.ok (10 + i) }

/-- Example segment starting at second `sec` of the Unix epoch. -/
def exampleSegment (path : String) (sec : Int) : Segment :=
  { Fpath := path, Start := { unixNano := sec * 1000000000, offset := 0 } }

/-- Example request start: second 1 of the Unix epoch. -/
def exampleStart : Time := { unixNano := 1000000000, offset := 0 }

/-- Go `writerWrapper`; the gin context is reached through `HttpCall`. -/
structure writerWrapper where
  written : Bool
deriving DecidableEq, Repr

/-- One call made by `writerWrapper.Write` on the gin context. -/
inductive HttpCall where
  | Header (key value : String)
  | WriterWrite (p : Bytes) (r : Int × Option Err)
deriving DecidableEq, Repr

/-- What a call of `writerWrapper.Write` leaves: the calls made, the wrapper, and
the returned pair. -/
structure WrapperWrite where
  calls : List HttpCall
  w : writerWrapper
  ret : Int × Option Err
deriving DecidableEq, Repr

/-- Go `writerWrapper.Write` (lines 31-38 of `on_get.go`); `answer` is what
`w.ctx.Writer.Write(p)` returns. -/
def writerWrapper.Write (w : writerWrapper) (p : Bytes) (answer : Int × Option Err) :
    WrapperWrite :=
  if !w.written then
    { calls := [HttpCall.Header "Accept-Ranges" "none",
                HttpCall.Header "Content-Type" "video/mp4",
                HttpCall.WriterWrite p answer],
      w := { w with written := true }, ret := answer }
  else
    { calls := [HttpCall.WriterWrite p answer], w := w, ret := answer }

/-- A sequence of `Write` calls on one wrapper; each call is given as its
argument and the answer of the underlying response writer. -/
def writerWrapper.writeAll (w : writerWrapper) :
    List (Bytes × (Int × Option Err)) → List HttpCall × writerWrapper
  | [] => ([], w)
  | (p, answer) :: rest =>
    let r := w.Write p answer
    let rs := r.w.writeAll rest
    (r.calls ++ rs.1, rs.2)

/-- A `Header` call. -/
def HttpCall.isHeader : HttpCall → Bool
  | HttpCall.Header _ _ => true
  | _ => false

/-- A call of the underlying response writer that forwarded bytes with a nil
error. -/
def HttpCall.forwarded : HttpCall → Bool
  | HttpCall.WriterWrite _ (_, none) => true
  | _ => false

/-- Go `Recording`; the float64 `Duration` decoded from a JSON number is a
rational. -/
structure Recording where
  Path : String
  Duration : ℚ
  Start : String
deriving DecidableEq, Repr

/-- The muxer chosen by `onGet`. -/
inductive Muxer where
  | muxerFMP4
  | muxerMP4
deriving DecidableEq, Repr

/-- Answers of the collaborators of `onGet`.  `timeParse` is
`time.Parse(time.RFC3339, ·)`; `parseDuration` is the float-based function of
lines 40-48; `safeFindPathConf` answers the `RecordFormat` of the path
configuration; `jsonUnmarshal` decodes the body into `[]Recording`; `written` is
`ww.written` after `seekAndMux`; `isNetOpError` is `errors.As(err, &neterr)` and
`isNoSegmentsFound` is `errors.Is(err, errNoSegmentsFound)`. -/
structure GetEnv where
  query : String → String
  doAuth : String → Bool
  timeParse : String → Res Time
  parseDuration : String → Res Duration
  safeFindPathConf : String → Res RecordFormat
  MicroServiceUrl : String
  httpGet : String → Res Unit
  readAll : Res String
  jsonUnmarshal : String → Res (List Recording)
  mux : Muxer → MuxEnv
  written : Muxer → Bool
  isNetOpError : Err → Bool
  isNoSegmentsFound : Err → Bool

/-- One call made by `onGet`; printing to standard output is left out. -/
inductive GetCall where
  | doAuth (pathName : String) (r : Bool)
  | writeError (status : Nat) (err : Err)
  | httpGet (url : String) (r : Res Unit)
  | readAll (r : Res String)
  | bodyClose
  | seekAndMux (recordFormat : RecordFormat) (segments : List Segment) (start : Time)
      (duration : Duration) (m : Muxer) (run : Run)
  | Log (msg : String)
deriving DecidableEq, Repr

/-- Go `http.StatusBadRequest`. -/
def StatusBadRequest : Nat := 400

/-- Go `http.StatusNotFound`. -/
def StatusNotFound : Nat := 404

/-- Lines 213-230 of `on_get.go`: one `Segment` per recording, in order; a start
that does not parse ends `onGet`. -/
def buildSegments (timeParse : String → Res Time) : List Recording → Res (List Segment)
  | [] => Res.ok []
  | recording :: rest =>
    match timeParse recording.Start with
    | Res.error err => Res.error err
    | Res.ok parsedTime =>
      let (year, month, day) := parsedTime.Date
      let (hour, min, sec) := parsedTime.Clock
      let nsec := parsedTime.Nanosecond
      match buildSegments timeParse rest with
      | Res.error err => Res.error err
      | Res.ok segments =>
        Res.ok ({ Fpath := recording.Path,
                  Start := timeDate year month day hour min sec nsec UTC } :: segments)

/-- Lines 149-160 of `on_get.go`: the muxer for a `format` query value. -/
def muxerOfFormat (format : String) : Option Muxer :=
  if format = "" ∨ format = "fmp4" then some Muxer.muxerFMP4
  else if format = "mp4" then some Muxer.muxerMP4
  else none

/-- Lines 247-268 of `on_get.go`: what `onGet` does with the exit of
`seekAndMux`. -/
def afterSeekAndMux (env : GetEnv) (m : Muxer) : Exit → List GetCall
  | Exit.panicked => []
  | Exit.returned none => []
  | Exit.returned (some err) =>
    if env.isNetOpError err then []
    else if !env.written m then
      if env.isNoSegmentsFound err then [GetCall.writeError StatusNotFound err]
      else [GetCall.writeError StatusBadRequest err]
    else [GetCall.Log err]

/-- Lines 178-268 of `on_get.go`: the inventory lookup and what follows it. -/
def lookupAndMux (env : GetEnv) (pathName : String) (start : Time) (duration : Duration)
    (m : Muxer) (recordFormat : RecordFormat) : List GetCall :=
  let url := env.MicroServiceUrl ++ "/api/v1/recording/list-without-concatenation?device="
    ++ pathName ++ "&start=" ++ env.query "start" ++ "&duration=" ++ env.query "duration"
  match env.httpGet url with
  | Res.error err => [GetCall.httpGet url (Res.error err)]
  | Res.ok u =>
    match env.readAll with
    | Res.error err =>
      [GetCall.httpGet url (Res.ok u), GetCall.readAll (Res.error err), GetCall.bodyClose]
    | Res.ok body =>
      match env.jsonUnmarshal body with
      | Res.error _ =>
        [GetCall.httpGet url (Res.ok u), GetCall.readAll (Res.ok body), GetCall.bodyClose]
      | Res.ok recordings =>
        if recordings.length = 0 then
          [GetCall.httpGet url (Res.ok u), GetCall.readAll (Res.ok body), GetCall.bodyClose]
        else
          match buildSegments env.timeParse recordings with
          | Res.error _ =>
            [GetCall.httpGet url (Res.ok u), GetCall.readAll (Res.ok body),
             GetCall.bodyClose]
          | Res.ok segments =>
            let run := seekAndMux (env.mux m) recordFormat segments start duration
            [GetCall.httpGet url (Res.ok u), GetCall.readAll (Res.ok body),
             GetCall.seekAndMux recordFormat segments start duration m run]
              ++ afterSeekAndMux env m run.exit ++ [GetCall.bodyClose]

/-- Go `(*Server).onGet` (lines 127-269 of `on_get.go`). -/
def Server.onGet (env : GetEnv) : List GetCall :=
  let pathName := env.query "path"
  if !env.doAuth pathName then [GetCall.doAuth pathName false]
  else
    match env.timeParse (env.query "start") with
    | Res.error err =>
      [GetCall.doAuth pathName true,
       GetCall.writeError StatusBadRequest ("invalid start: " ++ err)]
    | Res.ok start =>
      match env.parseDuration (env.query "duration") with
      | Res.error err =>
        [GetCall.doAuth pathName true,
         GetCall.writeError StatusBadRequest ("invalid duration: " ++ err)]
      | Res.ok duration =>
        match muxerOfFormat (env.query "format") with
        | none =>
          [GetCall.doAuth pathName true,
           GetCall.writeError StatusBadRequest ("invalid format: " ++ env.query "format")]
        | some m =>
          match env.safeFindPathConf pathName with
          | Res.error err =>
            [GetCall.doAuth pathName true, GetCall.writeError StatusBadRequest err]
          | Res.ok recordFormat =>
            GetCall.doAuth pathName true ::
              lookupAndMux env pathName start duration m recordFormat

/-- Example `time.Parse(time.RFC3339, ·)`: it knows the one string
"2024-08-08T17:13:29-03:00", the instant 2024-08-08 20:13:29 UTC
(1723148009 s after the epoch) in a zone 3 h west of UTC. -/
def exampleTimeParse (s : String) : Res Time :=
  if s = "2024-08-08T17:13:29-03:00" then
    Res.ok { unixNano := 1723148009000000000, offset := -10800 }
  else Res.error "cannot parse"

/-- Example request for 60 s of "cam1" from 2024-08-08T17:13:29-03:00 in which
every collaborator succeeds and the inventory answers the JSON text `body`,
decoded as `recordings`. -/
def exampleGetEnv (body : String) (recordings : List Recording) : GetEnv :=
  { query := fun k =>
      if k = "path" then "cam1"
      else if k = "start" then "2024-08-08T17:13:29-03:00"
      else if k = "duration" then "60"
      else ""
    doAuth := fun _ => true
    timeParse := exampleTimeParse
    parseDuration := fun _ => Res.ok 60000000000
    safeFindPathConf := fun _ => Res.ok RecordFormat.fmp4
    MicroServiceUrl := "http://inventory"
    httpGet := fun _ => Res.ok ()
    readAll := Res.ok body
    jsonUnmarshal := fun _ => Res.ok recordings
    mux := fun _ => exampleEnv
    written := fun _ => true
    isNetOpError := fun _ => false
    isNoSegmentsFound := fun _ => false }

end Playback

namespace Record

open Go

/-- One call made by the segment writer, with its arguments and its answer. -/
inductive Call where
  | bwFlush (r : Option Err)
  | Log (msg : String)
  | Stat (fi : File) (r : Res Int)
  | Close (fi : File) (r : Option Err)
  | OnSegmentComplete (path : String) (duration : Duration) (size : Int)
  | MkdirAll (dir : String) (r : Option Err)
  | Create (path : String) (r : Res File)
  | OnSegmentCreate (path : String)
  | Write (fi : File) (p : Bytes) (r : Int × Option Err)
deriving DecidableEq, Repr

/-- Go `formatMPEGTSSegment`; the parent `f` is reached through the
environments. -/
structure formatMPEGTSSegment where
  startDTS : Duration
  startNTP : Time
  path : String
  fi : Option File
  lastFlush : Duration
  lastDTS : Duration
deriving DecidableEq, Repr

/-- Answers of the collaborators of `Write`.  `pathFormat` is
`s.f.a.pathFormat`; `Encode start pathFormat` is
`Path{Start: start}.Encode(pathFormat)`; `Dir` is `filepath.Dir`; `MkdirAll n`,
`Create n` and `Write n` are the answers of `os.MkdirAll`, `os.Create` and
`s.fi.Write` during the `n`-th call of `Write`. -/
structure WriteEnv where
  pathFormat : String
  Encode : Time → String → String
  Dir : String → String
  MkdirAll : Nat → Option Err
  Create : Nat → Res File
  Write : Nat → Int × Option Err

/-- A finished call of `Write`: the calls made, the writer, and the returned
pair. -/
structure WriteRun where
  calls : List Call
  s : formatMPEGTSSegment
  ret : Int × Option Err
deriving DecidableEq, Repr

/-- Go `(*formatMPEGTSSegment).Write` (lines 55-76 of
`format_mpegts_segment.go`), as the `n`-th call. -/
def formatMPEGTSSegment.Write (env : WriteEnv) (n : Nat) (s : formatMPEGTSSegment)
    (p : Bytes) : WriteRun :=
  match s.fi with
  | none =>
    let path := env.Encode s.startNTP env.pathFormat
    let s1 := { s with path := path }
    match env.MkdirAll n with
    | some err =>
      { calls := [Call.Log ("creating segment " ++ path),
                  Call.MkdirAll (env.Dir path) (some err)],
        s := s1, ret := (0, some err) }
    | none =>
      match env.Create n with
      | Res.error err =>
        { calls := [Call.Log ("creating segment " ++ path),
                    Call.MkdirAll (env.Dir path) none,
                    Call.Create path (Res.error err)],
          s := s1, ret := (0, some err) }
      | Res.ok fi =>
        { calls := [Call.Log ("creating segment " ++ path),
                    Call.MkdirAll (env.Dir path) none,
                    Call.Create path (Res.ok fi),
                    Call.OnSegmentCreate path,
                    Call.Write fi p (env.Write n)],
          s := { s1 with fi := some fi }, ret := env.Write n }
  | some fi =>
    { calls := [Call.Write fi p (env.Write n)], s := s, ret := env.Write n }

/-- What a sequence of `Write` calls leaves: the calls made, the writer, and the
returned pairs in call order. -/
structure WritesRun where
  calls : List Call
  s : formatMPEGTSSegment
  rets : List (Int × Option Err)
deriving DecidableEq, Repr

/-- Successive `Write` calls on one writer, the first of them being the `n`-th. -/
def formatMPEGTSSegment.writeAll (env : WriteEnv) :
    Nat → formatMPEGTSSegment → List Bytes → WritesRun
  | _, s, [] => { calls := [], s := s, rets := [] }
  | n, s, p :: rest =>
    let r := s.Write env n p
    let rs := formatMPEGTSSegment.writeAll env (n + 1) r.s rest
    { calls := r.calls ++ rs.calls, s := rs.s, rets := r.ret :: rs.rets }

/-- Answers of the collaborators of `close`.  `s.f.bw.Flush()` empties the
buffered writer into its target, and the target was set to `s` by
`s.f.dw.setTarget(s)` (line 25): `Pending` lists the byte slices that the flush
hands to `s.Write`, in order (none when nothing is buffered), `write` answers
those `Write` calls, and `Flush` is the error the flush returns.  `Stat` is
`s.fi.Stat()` (the size of the file information, or the error, in which case
the file information is nil) and `Close` is `s.fi.Close()`. -/
structure CloseEnv where
  Pending : List Bytes
  write : WriteEnv
  Flush : Option Err
  Stat : Res Int
  Close : Option Err

/-- A finished call of `close`. -/
structure CloseRun where
  calls : List Call
  exit : Exit
deriving DecidableEq, Repr

/-- Go `(*formatMPEGTSSegment).close` (lines 28-53 of
`format_mpegts_segment.go`).  The flush re-enters `Write` for the buffered
bytes, so `s.fi` and `s.path` are read after it.  When `Stat` failed, `stat` is
nil and `stat.Size()` panics before `OnSegmentComplete` is called. -/
def formatMPEGTSSegment.close (env : CloseEnv) (s0 : formatMPEGTSSegment) : CloseRun :=
  let flushed := formatMPEGTSSegment.writeAll env.write 0 s0 env.Pending
  let s := flushed.s
  let err := env.Flush
  match s.fi with
  | none => { calls := flushed.calls ++ [Call.bwFlush env.Flush], exit := Exit.returned err }
  | some fi =>
    let err :=
      match env.Stat with
      | Res.error err1 => if err = none then some err1 else err
      | Res.ok _ => err
    let err2 := env.Close
    let err := if err = none then err2 else err
    let calls := flushed.calls ++
      [Call.bwFlush env.Flush, Call.Log ("closing segment " ++ s.path),
       Call.Stat fi env.Stat, Call.Close fi err2]
    if err2 = none then
      let duration := Duration.sub s.lastDTS s.startDTS
      match env.Stat with
      | Res.error _ => { calls := calls, exit := Exit.panicked }
      | Res.ok size =>
        { calls := calls ++ [Call.OnSegmentComplete s.path duration size],
          exit := Exit.returned err }
    else { calls := calls, exit := Exit.returned err }

/-- An `OnSegmentComplete` notification. -/
def Call.isSegmentComplete : Call → Bool
  | Call.OnSegmentComplete _ _ _ => true
  | _ => false

/-- An `OnSegmentCreate` notification. -/
def Call.isSegmentCreate : Call → Bool
  | Call.OnSegmentCreate _ => true
  | _ => false

/-- A write to the segment file. -/
def Call.isFileWrite : Call → Bool
  | Call.Write _ _ _ => true
  | _ => false

/-- Example writer whose file 3 is open at "rec/a.ts": first decode timestamp
2 s, last 7 s. -/
def exampleOpenSegment : formatMPEGTSSegment :=
  { startDTS := 2000000000, startNTP := { unixNano := 0, offset := 0 }, path := "rec/a.ts",
    fi := some 3, lastFlush := 2000000000, lastDTS := 7000000000 }

/-- Example writer that has not opened its file. -/
def exampleNewSegment : formatMPEGTSSegment :=
  { startDTS := 2000000000, startNTP := { unixNano := 0, offset := 0 }, path := "",
    fi := none, lastFlush := 2000000000, lastDTS := 2000000000 }

/-- Example environment of `Write`: the path is the path format followed by
"a.ts", the directory is "rec", everything succeeds, the file is 3, and each
write reports 188 bytes. -/
def exampleWriteEnv : WriteEnv :=
  { pathFormat := "rec/"
    Encode := fun _ pathFormat => pathFormat ++ "a.ts"
    Dir := fun _ => "rec"
    MkdirAll := fun _ => none
    Create := fun _ => Res.ok 3
    Write := fun _ => (188, none) }

end Record

/-! Theorems. -/

namespace Go

/-- Go `a - b` on durations is the integer difference when that fits an int64. -/
theorem Duration.sub_eq (a b : Int) (h1 : -(2 ^ 63) ≤ a - b) (h2 : a - b ≤ 2 ^ 63 - 1) :
    Duration.sub a b = a - b := by
  have e : Duration.sub a b = (a - b + 2 ^ 63) % 2 ^ 64 - 2 ^ 63 := rfl
  have p63 : (2 : Int) ^ 63 = 9223372036854775808 := by norm_num
  have p64 : (2 : Int) ^ 64 = 18446744073709551616 := by norm_num
  rw [e]
  rw [p63] at h1 h2 ⊢
  rw [p64]
  change @Eq Int _ _
  omega

end Go

namespace Playback

open Go

theorem segmentsLoop_okSteps (env : MuxEnv) (start : Time) (duration : Duration)
    (firstInit : Init) (F : Nat → File) (I : Nat → Init) (E : Nat → Duration) :
    ∀ (A B : List Segment) (i : Nat),
      (∀ j seg, A[j]? = some seg →
        env.osOpen (i + 1 + j) = Res.ok (F (i + 1 + j)) ∧
        env.segmentFMP4ReadInit (i + 1 + j) = Res.ok (I (i + 1 + j)) ∧
        env.segmentFMP4MuxParts (i + 1 + j) = Res.ok (E (i + 1 + j)) ∧
        env.segmentFMP4CanBeConcatenated firstInit (start.Add (E (i + j))) (I (i + 1 + j))
          seg.Start = true) →
      segmentsLoop env start duration firstInit (i + 1) (A ++ B) (start.Add (E i)) =
        { calls := okSteps start duration firstInit F I E (i + 1) A ++
            (segmentsLoop env start duration firstInit (i + 1 + A.length) B
              (start.Add (E (i + A.length)))).calls,
          deferred := (List.range' (i + 1) A.length).map F ++
            (segmentsLoop env start duration firstInit (i + 1 + A.length) B
              (start.Add (E (i + A.length)))).deferred,
          exit := (segmentsLoop env start duration firstInit (i + 1 + A.length) B
              (start.Add (E (i + A.length)))).exit } := by
  intro A
  induction A with
  | nil => intro B i _; simp [okSteps]
  | cons seg A ih =>
    intro B i h
    obtain ⟨h1, h2, h3, h4⟩ := h 0 seg (by simp)
    have h' : ∀ j s, A[j]? = some s →
        env.osOpen (i + 1 + 1 + j) = Res.ok (F (i + 1 + 1 + j)) ∧
        env.segmentFMP4ReadInit (i + 1 + 1 + j) = Res.ok (I (i + 1 + 1 + j)) ∧
        env.segmentFMP4MuxParts (i + 1 + 1 + j) = Res.ok (E (i + 1 + 1 + j)) ∧
        env.segmentFMP4CanBeConcatenated firstInit (start.Add (E (i + 1 + j)))
          (I (i + 1 + 1 + j)) s.Start = true := by
      intro j s hj
      have := h (j + 1) s (by simpa using hj)
      have e1 : i + 1 + (j + 1) = i + 1 + 1 + j := by omega
      have e2 : i + (j + 1) = i + 1 + j := by omega
      rw [e1, e2] at this
      exact this
    have ih' := ih B (i + 1) h'
    simp only [Nat.add_zero] at h1 h2 h3 h4
    have e3 : i + 1 + (seg :: A).length = i + 1 + 1 + A.length := by simp; omega
    have e4 : i + (seg :: A).length = i + 1 + A.length := by simp; omega
    rw [e3, e4]
    rw [List.cons_append, segmentsLoop, h1]
    simp only [h2, h3, h4]
    simp [ih', okSteps, okStep, List.range'_succ]

theorem filter_isMuxStep_okSteps (start : Time) (duration : Duration) (firstInit : Init)
    (F : Nat → File) (I : Nat → Init) (E : Nat → Duration) :
    ∀ (A : List Segment) (i : Nat),
      (okSteps start duration firstInit F I E i A).filter Call.isMuxStep =
        (A.enumFrom i).map (laterMuxStep start duration firstInit F E) := by
  intro A
  induction A with
  | nil => intro i; simp [okSteps]
  | cons seg A ih =>
    intro i
    simp [okSteps, okStep, List.filter_cons, Call.isMuxStep, ih, List.enumFrom, laterMuxStep]

theorem filter_isMuxerCall_okSteps (start : Time) (duration : Duration) (firstInit : Init)
    (F : Nat → File) (I : Nat → Init) (E : Nat → Duration) :
    ∀ (A : List Segment) (i : Nat),
      (okSteps start duration firstInit F I E i A).filter Call.isMuxerCall =
        (A.enumFrom i).map (laterMuxStep start duration firstInit F E) := by
  intro A
  induction A with
  | nil => intro i; simp [okSteps]
  | cons seg A ih =>
    intro i
    simp [okSteps, okStep, List.filter_cons, Call.isMuxerCall, ih, List.enumFrom, laterMuxStep]

theorem filter_isFlush_okSteps (start : Time) (duration : Duration) (firstInit : Init)
    (F : Nat → File) (I : Nat → Init) (E : Nat → Duration) :
    ∀ (A : List Segment) (i : Nat),
      (okSteps start duration firstInit F I E i A).filter Call.isFlush = [] := by
  intro A
  induction A with
  | nil => intro i; simp [okSteps]
  | cons seg A ih =>
    intro i
    simp [okSteps, okStep, List.filter_cons, Call.isFlush, ih]

theorem filterMap_openedPath_okSteps (start : Time) (duration : Duration) (firstInit : Init)
    (F : Nat → File) (I : Nat → Init) (E : Nat → Duration) :
    ∀ (A : List Segment) (i : Nat),
      (okSteps start duration firstInit F I E i A).filterMap Call.openedPath =
        A.map Segment.Fpath := by
  intro A
  induction A with
  | nil => intro i; simp [okSteps]
  | cons seg A ih =>
    intro i
    simp [okSteps, okStep, List.filterMap_cons, Call.openedPath, ih]

theorem filter_isMuxStep_fileClose (fs : List File) :
    (fs.map Call.fileClose).filter Call.isMuxStep = [] := by
  induction fs with
  | nil => rfl
  | cons f fs ih => simp [List.filter_cons, Call.isMuxStep]

theorem filter_isMuxerCall_fileClose (fs : List File) :
    (fs.map Call.fileClose).filter Call.isMuxerCall = [] := by
  induction fs with
  | nil => rfl
  | cons f fs ih => simp [List.filter_cons, Call.isMuxerCall]

theorem filter_isFlush_fileClose (fs : List File) :
    (fs.map Call.fileClose).filter Call.isFlush = [] := by
  induction fs with
  | nil => rfl
  | cons f fs ih => simp [List.filter_cons, Call.isFlush]

theorem filterMap_openedPath_fileClose (fs : List File) :
    (fs.map Call.fileClose).filterMap Call.openedPath = [] := by
  induction fs with
  | nil => rfl
  | cons f fs ih => simp [List.filterMap_cons, Call.openedPath]

theorem seekAndMuxBody_okSteps (env : MuxEnv) (seg0 : Segment) (A B : List Segment)
    (start : Time) (duration : Duration)
    (F : Nat → File) (I : Nat → Init) (E : Nat → Duration)
    (hopen : ∀ i, i ≤ A.length → env.osOpen i = Res.ok (F i))
    (hinit : ∀ i, i ≤ A.length → env.segmentFMP4ReadInit i = Res.ok (I i))
    (hseek : env.segmentFMP4SeekAndMuxParts = Res.ok (E 0))
    (hmux : ∀ i, 1 ≤ i → i ≤ A.length → env.segmentFMP4MuxParts i = Res.ok (E i))
    (hpass : ∀ j seg, A[j]? = some seg →
      env.segmentFMP4CanBeConcatenated (I 0) (start.Add (E j)) (I (j + 1)) seg.Start = true) :
    seekAndMuxBody env RecordFormat.fmp4 (seg0 :: (A ++ B)) start duration =
      { calls := [Call.osOpen seg0.Fpath (Res.ok (F 0)),
                  Call.segmentFMP4ReadInit (F 0) (Res.ok (I 0)),
                  Call.writeInit (I 0),
                  Call.segmentFMP4SeekAndMuxParts (F 0) (start.Sub seg0.Start) duration (I 0)
                    (Res.ok (E 0))] ++
                (okSteps start duration (I 0) F I E 1 A ++
                  (segmentsLoop env start duration (I 0) (A.length + 1) B
                    (start.Add (E A.length))).calls),
        deferred := F 0 :: ((List.range' 1 A.length).map F ++
          (segmentsLoop env start duration (I 0) (A.length + 1) B
            (start.Add (E A.length))).deferred),
        exit := (segmentsLoop env start duration (I 0) (A.length + 1) B
            (start.Add (E A.length))).exit } := by
  have hloop := segmentsLoop_okSteps env start duration (I 0) F I E A B 0
    (by
      intro j seg hj
      have hlt : j < A.length := by
        rcases Nat.lt_or_ge j A.length with h | h
        · exact h
        · rw [List.getElem?_eq_none h] at hj; cases hj
      have e1 : 0 + 1 + j = j + 1 := by omega
      have e2 : 0 + j = j := by omega
      rw [e1, e2]
      exact ⟨hopen (j + 1) (by omega), hinit (j + 1) (by omega),
        hmux (j + 1) (by omega) (by omega), hpass j seg hj⟩)
  have e3 : 0 + 1 + A.length = A.length + 1 := by omega
  have e4 : 0 + A.length = A.length := by omega
  rw [e3, e4] at hloop
  simp only [Nat.zero_add] at hloop
  rw [seekAndMuxBody]
  simp only [hopen 0 (Nat.zero_le _), hinit 0 (Nat.zero_le _), hseek]
  rw [hloop]

/-- C1. On an fMP4 request for `seg0 :: (before ++ segK :: after)` in which
the opens and init parses of segments `0..k` and the mux steps of segments
`0..k-1` succeed (`k = before.length + 1`), the compatibility test passes for
every segment of `before` and fails for `segK`: the mux steps are exactly
those of segments `0..k-1`, the opened paths are exactly those of segments
`0..k`, `flush` is called exactly once, and `seekAndMux` returns the result
of `flush`. -/
theorem seekAndMux_stops_at_first_incompatible (env : MuxEnv) (seg0 : Segment)
    (before : List Segment) (segK : Segment) (after : List Segment)
    (start : Time) (duration : Duration)
    (F : Nat → File) (I : Nat → Init) (E : Nat → Duration)
    (hopen : ∀ i, i ≤ before.length + 1 → env.osOpen i = Res.ok (F i))
    (hinit : ∀ i, i ≤ before.length + 1 → env.segmentFMP4ReadInit i = Res.ok (I i))
    (hseek : env.segmentFMP4SeekAndMuxParts = Res.ok (E 0))
    (hmux : ∀ i, 1 ≤ i → i ≤ before.length → env.segmentFMP4MuxParts i = Res.ok (E i))
    (hpass : ∀ j seg, before[j]? = some seg →
      env.segmentFMP4CanBeConcatenated (I 0) (start.Add (E j)) (I (j + 1)) seg.Start = true)
    (hfail : env.segmentFMP4CanBeConcatenated (I 0) (start.Add (E before.length))
      (I (before.length + 1)) segK.Start = false) :
    (seekAndMux env RecordFormat.fmp4 (seg0 :: (before ++ segK :: after)) start
        duration).calls.filter Call.isMuxStep =
      Call.segmentFMP4SeekAndMuxParts (F 0) (start.Sub seg0.Start) duration (I 0) (Res.ok (E 0))
        :: (before.enumFrom 1).map (fun p =>
          Call.segmentFMP4MuxParts (F p.1) (p.2.Start.Sub start) duration (I 0)
            (Res.ok (E p.1))) ∧
    (seekAndMux env RecordFormat.fmp4 (seg0 :: (before ++ segK :: after)) start
        duration).calls.filterMap Call.openedPath =
      (seg0 :: (before ++ [segK])).map Segment.Fpath ∧
    (seekAndMux env RecordFormat.fmp4 (seg0 :: (before ++ segK :: after)) start
        duration).calls.filter Call.isFlush = [Call.flush env.flush] ∧
    (seekAndMux env RecordFormat.fmp4 (seg0 :: (before ++ segK :: after)) start
        duration).exit = Exit.returned env.flush := by
  have hbody := seekAndMuxBody_okSteps env seg0 before (segK :: after) start duration F I E
    (fun i hi => hopen i (by omega)) (fun i hi => hinit i (by omega)) hseek hmux hpass
  have hk : segmentsLoop env start duration (I 0) (before.length + 1) (segK :: after)
      (start.Add (E before.length)) =
      { calls := [Call.osOpen segK.Fpath (Res.ok (F (before.length + 1))),
                  Call.segmentFMP4ReadInit (F (before.length + 1))
                    (Res.ok (I (before.length + 1))),
                  Call.flush env.flush],
        deferred := [F (before.length + 1)], exit := Exit.returned env.flush } := by
    rw [segmentsLoop, hopen _ (Nat.le_refl _)]
    simp only [hinit _ (Nat.le_refl _), hfail]
    simp [flushAndReturn]
  rw [hk] at hbody
  simp only [seekAndMux, hbody]
  refine ⟨?_, ?_, ?_, ?_⟩
  · rw [List.filter_append, filter_isMuxStep_fileClose, List.append_nil]
    simp [List.filter_cons, List.filter_append, Call.isMuxStep, filter_isMuxStep_okSteps,
      laterMuxStep]
  · rw [List.filterMap_append, filterMap_openedPath_fileClose, List.append_nil]
    simp [List.filterMap_cons, List.filterMap_append, Call.openedPath,
      filterMap_openedPath_okSteps]
  · rw [List.filter_append, filter_isFlush_fileClose, List.append_nil]
    simp [List.filter_cons, List.filter_append, Call.isFlush, filter_isFlush_okSteps]
  · trivial


/-- C3. On an fMP4 request for `seg0 :: rest` in which every open, init parse and
mux step succeeds and every compatibility test passes, the calls that reach the
muxer are, in this order: `writeInit` of the init of segment 0; the seek-and-mux
step on the file of segment 0 with offset `start.Sub seg0.Start`; for each later
segment, in list order, a mux step on its file with offset `seg.Start.Sub start`;
then `flush`.  Every mux step is handed the requested duration and the init of
segment 0. -/
theorem seekAndMux_muxer_calls_in_order (env : MuxEnv) (seg0 : Segment)
    (rest : List Segment) (start : Time) (duration : Duration)
    (F : Nat → File) (I : Nat → Init) (E : Nat → Duration)
    (hopen : ∀ i, i ≤ rest.length → env.osOpen i = Res.ok (F i))
    (hinit : ∀ i, i ≤ rest.length → env.segmentFMP4ReadInit i = Res.ok (I i))
    (hseek : env.segmentFMP4SeekAndMuxParts = Res.ok (E 0))
    (hmux : ∀ i, 1 ≤ i → i ≤ rest.length → env.segmentFMP4MuxParts i = Res.ok (E i))
    (hpass : ∀ j seg, rest[j]? = some seg →
      env.segmentFMP4CanBeConcatenated (I 0) (start.Add (E j)) (I (j + 1)) seg.Start = true) :
    (seekAndMux env RecordFormat.fmp4 (seg0 :: rest) start duration).calls.filter
        Call.isMuxerCall =
      [Call.writeInit (I 0),
       Call.segmentFMP4SeekAndMuxParts (F 0) (start.Sub seg0.Start) duration (I 0)
         (Res.ok (E 0))] ++
      (rest.enumFrom 1).map (fun p =>
        Call.segmentFMP4MuxParts (F p.1) (p.2.Start.Sub start) duration (I 0) (Res.ok (E p.1))) ++
      [Call.flush env.flush] := by
  have hbody := seekAndMuxBody_okSteps env seg0 rest [] start duration F I E
    hopen hinit hseek hmux hpass
  rw [List.append_nil] at hbody
  simp only [seekAndMux, hbody]
  rw [List.filter_append, filter_isMuxerCall_fileClose, List.append_nil]
  simp [List.filter_cons, List.filter_append, Call.isMuxerCall, filter_isMuxerCall_okSteps,
    segmentsLoop, flushAndReturn, laterMuxStep]

theorem stopsAtFailure_cons (c : Call) (calls : List Call) (exit : Exit)
    (hc : c.stepError = none) (h : StopsAtFailure calls exit) :
    StopsAtFailure (c :: calls) exit := by
  rcases h with h | ⟨good, bad, err, h1, h2, h3, h4⟩
  · left
    intro x hx
    rcases List.mem_cons.mp hx with hx | hx
    · rw [hx]; exact hc
    · exact h x hx
  · right
    refine ⟨c :: good, bad, err, by simp [h1], ?_, h3, h4⟩
    intro x hx
    rcases List.mem_cons.mp hx with hx | hx
    · rw [hx]; exact hc
    · exact h2 x hx

theorem stopsAtFailure_single (c : Call) (err : Err) (hc : c.stepError = some err) :
    StopsAtFailure [c] (Exit.returned (some err)) :=
  Or.inr ⟨[], c, err, rfl, by simp, hc, rfl⟩

theorem stopsAtFailure_flush (env : MuxEnv) :
    StopsAtFailure (flushAndReturn env).calls (flushAndReturn env).exit := by
  left
  intro c hc
  simp [flushAndReturn] at hc
  rw [hc]; rfl

theorem stopsAtFailure_segmentsLoop (env : MuxEnv) (start : Time) (duration : Duration)
    (firstInit : Init) :
    ∀ (segs : List Segment) (i : Nat) (segmentEnd : Time),
      StopsAtFailure (segmentsLoop env start duration firstInit i segs segmentEnd).calls
        (segmentsLoop env start duration firstInit i segs segmentEnd).exit := by
  intro segs
  induction segs with
  | nil => intro i segmentEnd; rw [segmentsLoop]; exact stopsAtFailure_flush env
  | cons seg rest ih =>
    intro i segmentEnd
    rw [segmentsLoop]
    cases h1 : env.osOpen i with
    | error err => exact stopsAtFailure_single _ err rfl
    | ok f =>
      cases h2 : env.segmentFMP4ReadInit i with
      | error err =>
        refine stopsAtFailure_cons _ _ _ ?_ (stopsAtFailure_single _ err ?_) <;> rfl
      | ok init =>
        cases h3 : env.segmentFMP4CanBeConcatenated firstInit segmentEnd init seg.Start with
        | false =>
          simp only [h3, Bool.not_false, ↓reduceIte, List.cons_append, List.nil_append]
          refine stopsAtFailure_cons _ _ _ ?_
            (stopsAtFailure_cons _ _ _ ?_ (stopsAtFailure_flush env)) <;> rfl
        | true =>
          simp only [h3, Bool.not_true, Bool.false_eq_true, ↓reduceIte, List.cons_append,
            List.nil_append]
          cases h4 : env.segmentFMP4MuxParts i with
          | error err =>
            refine stopsAtFailure_cons _ _ _ ?_
              (stopsAtFailure_cons _ _ _ ?_ (stopsAtFailure_single _ err ?_)) <;> rfl
          | ok segmentMaxElapsed =>
            refine stopsAtFailure_cons _ _ _ ?_
              (stopsAtFailure_cons _ _ _ ?_ (stopsAtFailure_cons _ _ _ ?_ (ih _ _))) <;> rfl

theorem stopsAtFailure_seekAndMuxBody (env : MuxEnv) (seg0 : Segment) (rest : List Segment)
    (start : Time) (duration : Duration) :
    StopsAtFailure (seekAndMuxBody env RecordFormat.fmp4 (seg0 :: rest) start duration).calls
      (seekAndMuxBody env RecordFormat.fmp4 (seg0 :: rest) start duration).exit := by
  rw [seekAndMuxBody]
  cases h1 : env.osOpen 0 with
  | error err => exact stopsAtFailure_single _ err rfl
  | ok f =>
    cases h2 : env.segmentFMP4ReadInit 0 with
    | error err =>
      refine stopsAtFailure_cons _ _ _ ?_ (stopsAtFailure_single _ err ?_) <;> rfl
    | ok firstInit =>
      cases h4 : env.segmentFMP4SeekAndMuxParts with
      | error err =>
        refine stopsAtFailure_cons _ _ _ ?_
          (stopsAtFailure_cons _ _ _ ?_
            (stopsAtFailure_cons _ _ _ ?_ (stopsAtFailure_single _ err ?_))) <;> rfl
      | ok segmentMaxElapsed =>
        refine stopsAtFailure_cons _ _ _ ?_
          (stopsAtFailure_cons _ _ _ ?_
            (stopsAtFailure_cons _ _ _ ?_
              (stopsAtFailure_cons _ _ _ ?_ (stopsAtFailure_segmentsLoop _ _ _ _ _ _ _)))) <;> rfl

theorem split_at_failure (closes : List Call) (bad c : Call) (err : Err)
    (hcl : ∀ x ∈ closes, x.stepError = none) (hc : c.stepError = some err) :
    ∀ (good pre post : List Call), (∀ x ∈ good, x.stepError = none) →
      good ++ bad :: closes = pre ++ c :: post → c = bad ∧ post = closes := by
  intro good
  induction good with
  | nil =>
    intro pre post _ h
    cases pre with
    | nil =>
      simp only [List.nil_append, List.cons.injEq] at h
      exact ⟨h.1.symm, h.2.symm⟩
    | cons p pre =>
      simp only [List.nil_append, List.cons_append, List.cons.injEq] at h
      have hmem : c ∈ closes := by rw [h.2]; simp
      rw [hcl c hmem] at hc
      cases hc
  | cons g good ih =>
    intro pre post hgood h
    cases pre with
    | nil =>
      simp only [List.nil_append, List.cons_append, List.cons.injEq] at h
      have := hgood g (by simp)
      rw [h.1, hc] at this
      cases this
    | cons p pre =>
      simp only [List.cons_append, List.cons.injEq] at h
      exact ih pre post (fun x hx => hgood x (by simp [hx])) h.2

/-- C2. On an fMP4 request for `seg0 :: rest`: a failed open, init parse or mux
step anywhere in the calls of `seekAndMux` makes it return that error, and
only the deferred file closes follow the failed call (no open, mux step or
flush); and when the open or the init parse of segment 0 fails, `seekAndMux`
returns that error and no call reaches the muxer (`writeInit`, mux step,
`flush`). -/
theorem seekAndMux_first_failure_is_returned (env : MuxEnv) (seg0 : Segment)
    (rest : List Segment) (start : Time) (duration : Duration) :
    (∀ (pre : List Call) (c : Call) (post : List Call) (err : Err),
      (seekAndMux env RecordFormat.fmp4 (seg0 :: rest) start duration).calls
          = pre ++ c :: post →
      c.stepError = some err →
      (seekAndMux env RecordFormat.fmp4 (seg0 :: rest) start duration).exit
          = Exit.returned (some err) ∧
      ∀ x ∈ post, ∃ f, x = Call.fileClose f) ∧
    (∀ (err : Err),
      (env.osOpen 0 = Res.error err ∨
        ∃ f, env.osOpen 0 = Res.ok f ∧ env.segmentFMP4ReadInit 0 = Res.error err) →
      (seekAndMux env RecordFormat.fmp4 (seg0 :: rest) start duration).exit
          = Exit.returned (some err) ∧
      ∀ x ∈ (seekAndMux env RecordFormat.fmp4 (seg0 :: rest) start duration).calls,
        x.isMuxerCall = false) := by
  constructor
  · intro pre c post err hsplit hc
    have hclose : ∀ x ∈ (seekAndMuxBody env RecordFormat.fmp4 (seg0 :: rest) start
        duration).deferred.reverse.map Call.fileClose, x.stepError = none := by
      intro x hx
      obtain ⟨f, _, hf⟩ := List.mem_map.mp hx
      rw [← hf]; rfl
    simp only [seekAndMux] at hsplit ⊢
    rcases stopsAtFailure_seekAndMuxBody env seg0 rest start duration with
      h | ⟨good, bad, e, h1, h2, h3, h4⟩
    · have hmem : c ∈ (seekAndMuxBody env RecordFormat.fmp4 (seg0 :: rest) start
          duration).calls ++ (seekAndMuxBody env RecordFormat.fmp4 (seg0 :: rest) start
          duration).deferred.reverse.map Call.fileClose := by
        rw [hsplit]; simp
      rcases List.mem_append.mp hmem with hm | hm
      · rw [h c hm] at hc; cases hc
      · rw [hclose c hm] at hc; cases hc
    · rw [h1, List.append_assoc, List.singleton_append] at hsplit
      obtain ⟨hcb, hpost⟩ := split_at_failure _ bad c err hclose hc good pre post h2 hsplit
      constructor
      · rw [h4]
        rw [hcb, h3] at hc
        cases hc
        rfl
      · intro x hx
        rw [hpost] at hx
        obtain ⟨f, _, hf⟩ := List.mem_map.mp hx
        exact ⟨f, hf.symm⟩
  · intro err h
    rcases h with h | ⟨f, h1, h2⟩
    · simp [seekAndMux, seekAndMuxBody, h, Call.isMuxerCall]
    · simp [seekAndMux, seekAndMuxBody, h1, h2, Call.isMuxerCall]

/-- Witness for C2: the open of `segments[1]` fails with "no such file". -/
theorem seekAndMux_first_failure_is_returned_witness :
    (seekAndMux exampleEnvOpenFails RecordFormat.fmp4
        [exampleSegment "a" 0, exampleSegment "b" 5] exampleStart 60000000000).exit
      = Exit.returned (some "no such file") ∧
    ∀ x ∈ ([Call.fileClose 10] : List Call), ∃ f, x = Call.fileClose f :=
  (seekAndMux_first_failure_is_returned exampleEnvOpenFails (exampleSegment "a" 0)
    [exampleSegment "b" 5] exampleStart 60000000000).1
    [Call.osOpen "a" (Res.ok 10), Call.segmentFMP4ReadInit 10 (Res.ok 7), Call.writeInit 7,
     Call.segmentFMP4SeekAndMuxParts 10 1000000000 60000000000 7 (Res.ok 5000000000)]
    (Call.osOpen "b" (Res.error "no such file")) [Call.fileClose 10] "no such file"
    (by decide) rfl

theorem handedDuration_segmentsLoop (env : MuxEnv) (start : Time) (duration : Duration)
    (firstInit : Init) :
    ∀ (segs : List Segment) (i : Nat) (segmentEnd : Time),
      ∀ c ∈ (segmentsLoop env start duration firstInit i segs segmentEnd).calls,
        ∀ d, c.handedDuration = some d → d = duration := by
  intro segs
  induction segs with
  | nil =>
    intro i segmentEnd c hc d hd
    simp only [segmentsLoop, flushAndReturn, List.mem_singleton] at hc
    rw [hc] at hd; cases hd
  | cons seg rest ih =>
    intro i segmentEnd c hc d hd
    rw [segmentsLoop] at hc
    cases h1 : env.osOpen i with
    | error err =>
      simp only [h1, List.mem_singleton] at hc
      rw [hc] at hd; cases hd
    | ok f =>
      cases h2 : env.segmentFMP4ReadInit i with
      | error err =>
        simp only [h1, h2, List.mem_cons, List.mem_singleton, List.not_mem_nil, or_false] at hc
        rcases hc with hc | hc <;> rw [hc] at hd <;> cases hd
      | ok init =>
        cases h3 : env.segmentFMP4CanBeConcatenated firstInit segmentEnd init seg.Start with
        | false =>
          simp only [h1, h2, h3, Bool.not_false, ↓reduceIte, flushAndReturn, List.cons_append,
            List.nil_append, List.mem_cons, List.mem_singleton, List.not_mem_nil, or_false] at hc
          rcases hc with hc | hc | hc <;> rw [hc] at hd <;> cases hd
        | true =>
          cases h4 : env.segmentFMP4MuxParts i with
          | error err =>
            simp only [h1, h2, h3, h4, Bool.not_true, Bool.false_eq_true, ↓reduceIte,
              List.mem_cons, List.mem_singleton, List.not_mem_nil, or_false] at hc
            rcases hc with hc | hc | hc <;> rw [hc] at hd <;> cases hd
            rfl
          | ok segmentMaxElapsed =>
            simp only [h1, h2, h3, h4, Bool.not_true, Bool.false_eq_true, ↓reduceIte,
              List.cons_append, List.nil_append, List.mem_cons] at hc
            rcases hc with hc | hc | hc | hc
            · rw [hc] at hd; cases hd
            · rw [hc] at hd; cases hd
            · rw [hc] at hd; cases hd; rfl
            · exact ih _ _ c hc d hd

theorem handedDuration_seekAndMux (env : MuxEnv) (recordFormat : RecordFormat)
    (segments : List Segment) (start : Time) (duration : Duration) (c : Call) (d : Duration)
    (hc : c ∈ (seekAndMux env recordFormat segments start duration).calls)
    (hd : c.handedDuration = some d) : d = duration := by
  simp only [seekAndMux, List.mem_append, List.mem_map] at hc
  rcases hc with hc | ⟨f, _, hf⟩
  · cases recordFormat with
    | mpegts => simp [seekAndMuxBody] at hc
    | fmp4 =>
      cases segments with
      | nil => simp [seekAndMuxBody] at hc
      | cons seg0 rest =>
        rw [seekAndMuxBody] at hc
        cases h1 : env.osOpen 0 with
        | error err =>
          simp only [h1, List.mem_singleton] at hc
          rw [hc] at hd; cases hd
        | ok f =>
          cases h2 : env.segmentFMP4ReadInit 0 with
          | error err =>
            simp only [h1, h2, List.mem_cons, List.mem_singleton, List.not_mem_nil,
              or_false] at hc
            rcases hc with hc | hc <;> rw [hc] at hd <;> cases hd
          | ok firstInit =>
            cases h4 : env.segmentFMP4SeekAndMuxParts with
            | error err =>
              simp only [h1, h2, h4, List.mem_cons, List.mem_singleton, List.not_mem_nil,
                or_false] at hc
              rcases hc with hc | hc | hc | hc <;> rw [hc] at hd <;> cases hd
              rfl
            | ok segmentMaxElapsed =>
              simp only [h1, h2, h4, List.cons_append, List.nil_append, List.mem_cons] at hc
              rcases hc with hc | hc | hc | hc | hc
              · rw [hc] at hd; cases hd
              · rw [hc] at hd; cases hd
              · rw [hc] at hd; cases hd
              · rw [hc] at hd; cases hd; rfl
              · exact handedDuration_segmentsLoop env start duration firstInit _ _ _ c hc d hd
  · rw [← hf] at hd; cases hd

theorem segmentsLoop_reaches_mux_step (env : MuxEnv) (start : Time) (duration : Duration)
    (firstInit : Init) (i : Nat) (seg : Segment) (rest : List Segment) (segmentEnd : Time)
    (f : File) (init : Init)
    (hopen : env.osOpen i = Res.ok f) (hinit : env.segmentFMP4ReadInit i = Res.ok init)
    (hpass : env.segmentFMP4CanBeConcatenated firstInit segmentEnd init seg.Start = true) :
    ∃ tail, (segmentsLoop env start duration firstInit i (seg :: rest) segmentEnd).calls.filter
        Call.isMuxStep =
      Call.segmentFMP4MuxParts f (seg.Start.Sub start) duration firstInit
        (env.segmentFMP4MuxParts i) :: tail := by
  rw [segmentsLoop, hopen]
  simp only [hinit, hpass, Bool.not_true, Bool.false_eq_true, ↓reduceIte]
  cases hm : env.segmentFMP4MuxParts i with
  | error err => exact ⟨[], by simp [List.filter_cons, Call.isMuxStep]⟩
  | ok segmentMaxElapsed =>
    exact ⟨(segmentsLoop env start duration firstInit (i + 1) rest
      (start.Add segmentMaxElapsed)).calls.filter Call.isMuxStep,
      by simp [List.filter_cons, Call.isMuxStep]⟩

/-- C4 (amended). On an fMP4 request for `seg0 :: (before ++ seg :: after)` in
which the steps before `seg` succeed and pass the compatibility test, and `seg`
(a later segment, index `before.length + 1`) opens, parses and passes the
compatibility test: the mux steps issued are the seek step of segment 0, the
mux steps of `before`, then the mux step of `seg`, and each of them is handed
the requested duration unchanged, whatever time the earlier steps reported as
produced; and no mux step anywhere in the run is handed another duration. -/
theorem seekAndMux_hands_requested_duration (env : MuxEnv) (seg0 : Segment)
    (before : List Segment) (seg : Segment) (after : List Segment)
    (start : Time) (duration : Duration)
    (F : Nat → File) (I : Nat → Init) (E : Nat → Duration)
    (hopen : ∀ i, i ≤ before.length + 1 → env.osOpen i = Res.ok (F i))
    (hinit : ∀ i, i ≤ before.length + 1 → env.segmentFMP4ReadInit i = Res.ok (I i))
    (hseek : env.segmentFMP4SeekAndMuxParts = Res.ok (E 0))
    (hmux : ∀ i, 1 ≤ i → i ≤ before.length → env.segmentFMP4MuxParts i = Res.ok (E i))
    (hbefore : ∀ j s, before[j]? = some s →
      env.segmentFMP4CanBeConcatenated (I 0) (start.Add (E j)) (I (j + 1)) s.Start = true)
    (hpass : env.segmentFMP4CanBeConcatenated (I 0) (start.Add (E before.length))
      (I (before.length + 1)) seg.Start = true) :
    (∃ tail,
      (seekAndMux env RecordFormat.fmp4 (seg0 :: (before ++ seg :: after)) start
          duration).calls.filter Call.isMuxStep =
        Call.segmentFMP4SeekAndMuxParts (F 0) (start.Sub seg0.Start) duration (I 0)
            (Res.ok (E 0))
          :: ((before.enumFrom 1).map (fun p =>
                Call.segmentFMP4MuxParts (F p.1) (p.2.Start.Sub start) duration (I 0)
                  (Res.ok (E p.1)))
              ++ Call.segmentFMP4MuxParts (F (before.length + 1)) (seg.Start.Sub start)
                   duration (I 0) (env.segmentFMP4MuxParts (before.length + 1)) :: tail)) ∧
    (∀ c ∈ (seekAndMux env RecordFormat.fmp4 (seg0 :: (before ++ seg :: after)) start
          duration).calls,
      ∀ d, c.handedDuration = some d → d = duration) := by
  constructor
  · have hbody := seekAndMuxBody_okSteps env seg0 before (seg :: after) start duration F I E
      (fun i hi => hopen i (by omega)) (fun i hi => hinit i (by omega)) hseek hmux hbefore
    obtain ⟨tail, htail⟩ := segmentsLoop_reaches_mux_step env start duration (I 0)
      (before.length + 1) seg after (start.Add (E before.length)) (F (before.length + 1))
      (I (before.length + 1)) (hopen _ (Nat.le_refl _)) (hinit _ (Nat.le_refl _)) hpass
    refine ⟨tail, ?_⟩
    simp only [seekAndMux, hbody]
    rw [List.filter_append, filter_isMuxStep_fileClose, List.append_nil, List.filter_append,
      List.filter_append, htail, filter_isMuxStep_okSteps]
    simp [List.filter_cons, Call.isMuxStep, laterMuxStep]
  · intro c hc d hd
    exact handedDuration_seekAndMux env RecordFormat.fmp4 _ start duration c d hc hd

/-- Witness for C4 (amended): a 10 s request over two compatible segments; the
step of segment 0 reports 5 s and the mux step of segment 1 is handed 10 s. -/
theorem seekAndMux_hands_requested_duration_witness :
    ∃ tail,
      (seekAndMux exampleEnv RecordFormat.fmp4
          (exampleSegment "a" 0 :: ([] ++ exampleSegment "b" 5 :: [])) exampleStart
          10000000000).calls.filter Call.isMuxStep =
        Call.segmentFMP4SeekAndMuxParts 10 1000000000 10000000000 7 (Res.ok 5000000000)
          :: ([] ++ Call.segmentFMP4MuxParts 11 4000000000 10000000000 7
                (Res.ok 10000000000) :: tail) :=
  (seekAndMux_hands_requested_duration exampleEnv (exampleSegment "a" 0) []
    (exampleSegment "b" 5) [] exampleStart 10000000000
    (fun i => 10 + i) (fun i => if i = 2 then 8 else 7) (fun i => 5000000000 * (i + 1))
    (fun _ _ => rfl) (fun _ _ => rfl) (by decide) (fun _ _ _ => rfl)
    (by intro j s h; simp at h) rfl).1

/-- C4 (counterexample). A 10 s request over two compatible segments: the step of
segment 0 reports 5 s produced, and the mux step of segment 1 is handed 10 s,
not the remaining 10 s - 5 s. -/
theorem later_mux_step_not_handed_remaining_budget :
    Call.segmentFMP4SeekAndMuxParts 10 1000000000 10000000000 7 (Res.ok 5000000000) ∈
      (seekAndMux exampleEnv RecordFormat.fmp4 [exampleSegment "a" 0, exampleSegment "b" 5]
        exampleStart 10000000000).calls ∧
    Call.segmentFMP4MuxParts 11 4000000000 10000000000 7 (Res.ok 10000000000) ∈
      (seekAndMux exampleEnv RecordFormat.fmp4 [exampleSegment "a" 0, exampleSegment "b" 5]
        exampleStart 10000000000).calls ∧
    ¬ Call.segmentFMP4MuxParts 11 4000000000 (10000000000 - 5000000000) 7
        (Res.ok 10000000000) ∈
      (seekAndMux exampleEnv RecordFormat.fmp4 [exampleSegment "a" 0, exampleSegment "b" 5]
        exampleStart 10000000000).calls := by
  decide

/-- Witness for C1: four segments, `segments[2]` has another init than
`segments[0]`. -/
theorem seekAndMux_stops_at_first_incompatible_witness :
    (seekAndMux exampleEnv RecordFormat.fmp4
        (exampleSegment "a" 0 :: ([exampleSegment "b" 5] ++
          exampleSegment "c" 10 :: [exampleSegment "d" 15])) exampleStart
        60000000000).calls.filter Call.isMuxStep =
      [Call.segmentFMP4SeekAndMuxParts 10 1000000000 60000000000 7 (Res.ok 5000000000),
       Call.segmentFMP4MuxParts 11 4000000000 60000000000 7 (Res.ok 10000000000)] ∧
    (seekAndMux exampleEnv RecordFormat.fmp4
        (exampleSegment "a" 0 :: ([exampleSegment "b" 5] ++
          exampleSegment "c" 10 :: [exampleSegment "d" 15])) exampleStart
        60000000000).calls.filterMap Call.openedPath = ["a", "b", "c"] ∧
    (seekAndMux exampleEnv RecordFormat.fmp4
        (exampleSegment "a" 0 :: ([exampleSegment "b" 5] ++
          exampleSegment "c" 10 :: [exampleSegment "d" 15])) exampleStart
        60000000000).calls.filter Call.isFlush = [Call.flush none] ∧
    (seekAndMux exampleEnv RecordFormat.fmp4
        (exampleSegment "a" 0 :: ([exampleSegment "b" 5] ++
          exampleSegment "c" 10 :: [exampleSegment "d" 15])) exampleStart
        60000000000).exit = Exit.returned none :=
  seekAndMux_stops_at_first_incompatible exampleEnv (exampleSegment "a" 0)
    [exampleSegment "b" 5] (exampleSegment "c" 10) [exampleSegment "d" 15] exampleStart
    60000000000 (fun i => 10 + i) (fun i => if i = 2 then 8 else 7)
    (fun i => 5000000000 * (i + 1))
    (fun _ _ => rfl) (fun _ _ => rfl) (by decide) (fun _ _ _ => rfl)
    (by
      intro j seg h
      cases j with
      | zero => rfl
      | succ j => simp at h)
    rfl

/-- Witness for C3: three segments whose inits differ and whose compatibility
tests all pass. -/
theorem seekAndMux_muxer_calls_in_order_witness :
    (seekAndMux exampleEnvCompatible RecordFormat.fmp4
        [exampleSegment "a" 0, exampleSegment "b" 5, exampleSegment "c" 10] exampleStart
        60000000000).calls.filter Call.isMuxerCall =
      [Call.writeInit 7,
       Call.segmentFMP4SeekAndMuxParts 10 1000000000 60000000000 7 (Res.ok 5000000000),
       Call.segmentFMP4MuxParts 11 4000000000 60000000000 7 (Res.ok 10000000000),
       Call.segmentFMP4MuxParts 12 9000000000 60000000000 7 (Res.ok 15000000000),
       Call.flush none] :=
  seekAndMux_muxer_calls_in_order exampleEnvCompatible (exampleSegment "a" 0)
    [exampleSegment "b" 5, exampleSegment "c" 10] exampleStart 60000000000
    (fun i => 10 + i) (fun i => if i = 2 then 8 else 7) (fun i => 5000000000 * (i + 1))
    (fun _ _ => rfl) (fun _ _ => rfl) (by decide) (fun _ _ _ => rfl) (fun _ _ _ => rfl)

end Playback

namespace Playback

open Go

/-- C8 (evaluation). A request whose inventory lookup succeeds with the JSON
text "[]": `onGet` authenticates, fetches and reads the inventory answer, closes
the body and returns; it sends no error response (no not-found status) and does
not call `seekAndMux`. -/
theorem onGet_empty_inventory_sends_no_response :
    Server.onGet (exampleGetEnv "[]" []) =
      [GetCall.doAuth "cam1" true,
       GetCall.httpGet
         ("http://inventory/api/v1/recording/list-without-concatenation?device=cam1"
           ++ "&start=2024-08-08T17:13:29-03:00&duration=60") (Res.ok ()),
       GetCall.readAll (Res.ok "[]"),
       GetCall.bodyClose] ∧
    ∀ err, GetCall.writeError StatusNotFound err ∉ Server.onGet (exampleGetEnv "[]" []) := by
  have h : Server.onGet (exampleGetEnv "[]" []) =
      [GetCall.doAuth "cam1" true,
       GetCall.httpGet
         ("http://inventory/api/v1/recording/list-without-concatenation?device=cam1"
           ++ "&start=2024-08-08T17:13:29-03:00&duration=60") (Res.ok ()),
       GetCall.readAll (Res.ok "[]"),
       GetCall.bodyClose] := by decide
  refine ⟨h, ?_⟩
  intro err hmem
  rw [h] at hmem
  simp at hmem

theorem writeAll_written (w : writerWrapper) (hw : w.written = true) :
    ∀ calls : List (Bytes × (Int × Option Err)),
      w.writeAll calls = (calls.map (fun c => HttpCall.WriterWrite c.1 c.2), w) := by
  intro calls
  induction calls with
  | nil => rfl
  | cons c rest ih =>
    obtain ⟨p, answer⟩ := c
    simp only [writerWrapper.writeAll, writerWrapper.Write, hw, Bool.not_true,
      Bool.false_eq_true, ↓reduceIte, ih, List.map_cons, List.singleton_append]

/-- C10 (amended). On a wrapper that has not written: no call, no header; and
for every non-empty sequence of `Write` calls, whatever the underlying writer
answers, the two framing headers are set exactly once, before the first bytes
are forwarded, every call is forwarded, and `written` ends true.  Once `written`
is true it stays true and no header is set again.  So `written` is true exactly
when at least one `Write` call has been made, successful or not. -/
theorem writerWrapper_headers_once_written_after_any_call :
    (writerWrapper.mk false).writeAll [] = ([], writerWrapper.mk false) ∧
    (∀ (c : Bytes × (Int × Option Err)) (rest : List (Bytes × (Int × Option Err))),
      (writerWrapper.mk false).writeAll (c :: rest) =
        ([HttpCall.Header "Accept-Ranges" "none", HttpCall.Header "Content-Type" "video/mp4"]
          ++ (c :: rest).map (fun c => HttpCall.WriterWrite c.1 c.2),
         writerWrapper.mk true)) ∧
    (∀ (calls : List (Bytes × (Int × Option Err))),
      (writerWrapper.mk true).writeAll calls =
        (calls.map (fun c => HttpCall.WriterWrite c.1 c.2), writerWrapper.mk true)) := by
  refine ⟨rfl, ?_, ?_⟩
  · intro c rest
    obtain ⟨p, answer⟩ := c
    simp only [writerWrapper.writeAll, writerWrapper.Write, Bool.not_false, ↓reduceIte,
      writeAll_written (writerWrapper.mk true) rfl, List.map_cons, List.cons_append,
      List.nil_append]
  · intro calls
    exact writeAll_written (writerWrapper.mk true) rfl calls

/-- C10 (counterexample). One `Write` call whose underlying write fails with 0
bytes: `written` is true although no call forwarded bytes successfully. -/
theorem writerWrapper_written_without_forwarded_bytes :
    ((writerWrapper.mk false).writeAll [([1, 2], (0, some "broken pipe"))]).2.written = true ∧
    ∀ c ∈ ((writerWrapper.mk false).writeAll [([1, 2], (0, some "broken pipe"))]).1,
      c.forwarded = false := by
  decide

end Playback

namespace Record

open Go

theorem writeAll_open (env : WriteEnv) (fi : File) :
    ∀ (ps : List Bytes) (n : Nat) (s : formatMPEGTSSegment), s.fi = some fi →
      formatMPEGTSSegment.writeAll env n s ps =
        { calls := (ps.enumFrom n).map (fun q => Call.Write fi q.2 (env.Write q.1)),
          s := s,
          rets := (ps.enumFrom n).map (fun q => env.Write q.1) } := by
  intro ps
  induction ps with
  | nil => intro n s _; rfl
  | cons p rest ih =>
    intro n s hs
    simp only [formatMPEGTSSegment.writeAll, formatMPEGTSSegment.Write, hs, ih (n + 1) s hs,
      List.enumFrom, List.map_cons, List.singleton_append]

theorem writeAll_creates (env : WriteEnv) (s : formatMPEGTSSegment) (n : Nat)
    (hs : s.fi = none) (fi : File) (p : Bytes) (ps : List Bytes)
    (hmk : env.MkdirAll n = none) (hcr : env.Create n = Res.ok fi) :
    formatMPEGTSSegment.writeAll env n s (p :: ps) =
      { calls :=
          [Call.Log ("creating segment " ++ env.Encode s.startNTP env.pathFormat),
           Call.MkdirAll (env.Dir (env.Encode s.startNTP env.pathFormat)) none,
           Call.Create (env.Encode s.startNTP env.pathFormat) (Res.ok fi),
           Call.OnSegmentCreate (env.Encode s.startNTP env.pathFormat)]
          ++ ((p :: ps).enumFrom n).map (fun q => Call.Write fi q.2 (env.Write q.1)),
        s := { s with path := env.Encode s.startNTP env.pathFormat, fi := some fi },
        rets := ((p :: ps).enumFrom n).map (fun q => env.Write q.1) } := by
  simp only [formatMPEGTSSegment.writeAll, formatMPEGTSSegment.Write, hs, hmk, hcr]
  rw [writeAll_open env fi ps (n + 1) _ rfl]
  simp [List.enumFrom]

theorem Write_keeps_timestamps (env : WriteEnv) (n : Nat) (s : formatMPEGTSSegment)
    (p : Bytes) :
    (s.Write env n p).s.startDTS = s.startDTS ∧ (s.Write env n p).s.lastDTS = s.lastDTS ∧
    (s.Write env n p).calls.filter Call.isSegmentComplete = [] := by
  unfold formatMPEGTSSegment.Write
  cases hfi : s.fi with
  | some fi => simp [List.filter_cons, Call.isSegmentComplete]
  | none =>
    cases hmk : env.MkdirAll n with
    | some err => simp [List.filter_cons, Call.isSegmentComplete]
    | none =>
      cases hcr : env.Create n with
      | error err => simp [List.filter_cons, Call.isSegmentComplete]
      | ok fi => simp [List.filter_cons, Call.isSegmentComplete]

theorem writeAll_keeps_timestamps (env : WriteEnv) :
    ∀ (ps : List Bytes) (n : Nat) (s : formatMPEGTSSegment),
      (formatMPEGTSSegment.writeAll env n s ps).s.startDTS = s.startDTS ∧
      (formatMPEGTSSegment.writeAll env n s ps).s.lastDTS = s.lastDTS ∧
      (formatMPEGTSSegment.writeAll env n s ps).calls.filter Call.isSegmentComplete = [] := by
  intro ps
  induction ps with
  | nil => intro n s; exact ⟨rfl, rfl, rfl⟩
  | cons p rest ih =>
    intro n s
    obtain ⟨h1, h2, h3⟩ := Write_keeps_timestamps env n s p
    obtain ⟨i1, i2, i3⟩ := ih (n + 1) (s.Write env n p).s
    simp only [formatMPEGTSSegment.writeAll]
    refine ⟨i1.trans h1, i2.trans h2, ?_⟩
    rw [List.filter_append, h3, i3]
    rfl

theorem close_after_flush (env : CloseEnv) (s : formatMPEGTSSegment) :
    ((formatMPEGTSSegment.writeAll env.write 0 s env.Pending).s.fi = none →
      (s.close env).calls.filter Call.isSegmentComplete = []) ∧
    (∀ fi err2, (formatMPEGTSSegment.writeAll env.write 0 s env.Pending).s.fi = some fi →
      env.Close = some err2 →
      (s.close env).calls.filter Call.isSegmentComplete = []) ∧
    (∀ fi size, (formatMPEGTSSegment.writeAll env.write 0 s env.Pending).s.fi = some fi →
      env.Stat = Res.ok size → env.Close = none →
      (s.close env).calls.filter Call.isSegmentComplete =
        [Call.OnSegmentComplete (formatMPEGTSSegment.writeAll env.write 0 s env.Pending).s.path
          (Duration.sub s.lastDTS s.startDTS) size]) := by
  obtain ⟨h1, h2, h3⟩ := writeAll_keeps_timestamps env.write env.Pending 0 s
  refine ⟨?_, ?_, ?_⟩
  · intro hfi
    simp [formatMPEGTSSegment.close, hfi, List.filter_append, h3, List.filter_cons,
      Call.isSegmentComplete]
  · intro fi err2 hfi hclose
    simp [formatMPEGTSSegment.close, hfi, hclose, List.filter_append, h3, List.filter_cons,
      Call.isSegmentComplete]
  · intro fi size hfi hstat hclose
    simp [formatMPEGTSSegment.close, hfi, hstat, hclose, List.filter_append, h3,
      List.filter_cons, Call.isSegmentComplete, h1, h2]

/-- C5 (amended). `close` flushes first, and the flush hands the buffered bytes to
`Write`, which may open the file; the file is looked at after that.  For every
outcome of the flush: (1) a writer whose file was open on entry, when the stat
and the file close both succeed, emits exactly one segment-complete
notification, carrying its path, the Go difference `lastDTS - startDTS` and the
size from the stat; (2) so does a writer whose file is opened by the flush, with
the path `Encode startNTP pathFormat` of the created file; (3) whenever the
file is open after the flush and the file close fails, no notification is
emitted; (4) a writer whose file is still not open after the flush emits none,
in particular one entered without a file and without buffered bytes. -/
theorem close_notifies_iff_file_close_succeeds (env : CloseEnv) (s : formatMPEGTSSegment) :
    (∀ fi size, s.fi = some fi → env.Stat = Res.ok size → env.Close = none →
      (s.close env).calls.filter Call.isSegmentComplete =
        [Call.OnSegmentComplete s.path (Duration.sub s.lastDTS s.startDTS) size]) ∧
    (∀ fi size p ps, s.fi = none → env.Pending = p :: ps →
      env.write.MkdirAll 0 = none → env.write.Create 0 = Res.ok fi →
      env.Stat = Res.ok size → env.Close = none →
      (s.close env).calls.filter Call.isSegmentComplete =
        [Call.OnSegmentComplete (env.write.Encode s.startNTP env.write.pathFormat)
          (Duration.sub s.lastDTS s.startDTS) size]) ∧
    (∀ fi err2, (formatMPEGTSSegment.writeAll env.write 0 s env.Pending).s.fi = some fi →
      env.Close = some err2 →
      (s.close env).calls.filter Call.isSegmentComplete = []) ∧
    ((formatMPEGTSSegment.writeAll env.write 0 s env.Pending).s.fi = none →
      (s.close env).calls.filter Call.isSegmentComplete = []) ∧
    (s.fi = none → env.Pending = [] →
      (s.close env).calls.filter Call.isSegmentComplete = []) := by
  obtain ⟨hnone, hfail, hok⟩ := close_after_flush env s
  refine ⟨?_, ?_, hfail, hnone, ?_⟩
  · intro fi size hfi hstat hclose
    have hw := writeAll_open env.write fi env.Pending 0 s hfi
    have := hok fi size (by rw [hw]; exact hfi) hstat hclose
    rw [hw] at this
    exact this
  · intro fi size p ps hfi hpend hmk hcr hstat hclose
    have hw := writeAll_creates env.write s 0 hfi fi p ps hmk hcr
    rw [← hpend] at hw
    have := hok fi size (by rw [hw]) hstat hclose
    rw [hw] at this
    exact this
  · intro hfi hpend
    apply hnone
    rw [hpend]
    exact hfi

/-- Witness for C5 (amended): a writer entered without a file and with one
buffered slice; the flush creates "rec/a.ts", stat reports 188 bytes and the
file close succeeds. -/
theorem close_notifies_iff_file_close_succeeds_witness :
    (exampleNewSegment.close
        { Pending := [[71, 0]], write := exampleWriteEnv, Flush := none,
          Stat := Res.ok 188, Close := none }).calls.filter Call.isSegmentComplete =
      [Call.OnSegmentComplete "rec/a.ts" (Duration.sub 2000000000 2000000000) 188] :=
  (close_notifies_iff_file_close_succeeds
    { Pending := [[71, 0]], write := exampleWriteEnv, Flush := none,
      Stat := Res.ok 188, Close := none }
    exampleNewSegment).2.1 3 188 [71, 0] [] rfl rfl rfl rfl rfl rfl

/-- C5 (counterexample). The file was opened before `close`, nothing is
buffered, flush and stat succeed and the file close fails: `close` emits no
segment-complete notification. -/
theorem close_emits_nothing_when_file_close_fails :
    (exampleOpenSegment.close
        { Pending := [], write := exampleWriteEnv, Flush := none, Stat := Res.ok 1000,
          Close := some "close failed" }).calls =
      [Call.bwFlush none, Call.Log "closing segment rec/a.ts", Call.Stat 3 (Res.ok 1000),
       Call.Close 3 (some "close failed")] ∧
    (exampleOpenSegment.close
        { Pending := [], write := exampleWriteEnv, Flush := none, Stat := Res.ok 1000,
          Close := some "close failed" }).calls.filter Call.isSegmentComplete = [] := by
  decide

theorem close_returns_first_error_without_panic (env : CloseEnv) (s : formatMPEGTSSegment) :
    ((formatMPEGTSSegment.writeAll env.write 0 s env.Pending).s.fi = none →
      (s.close env).exit = Exit.returned env.Flush) ∧
    (∀ fi size, (formatMPEGTSSegment.writeAll env.write 0 s env.Pending).s.fi = some fi →
      env.Stat = Res.ok size →
      (s.close env).exit = Exit.returned (if env.Flush = none then env.Close else env.Flush)) ∧
    (∀ fi err1 err2, (formatMPEGTSSegment.writeAll env.write 0 s env.Pending).s.fi = some fi →
      env.Stat = Res.error err1 → env.Close = some err2 →
      (s.close env).exit =
        Exit.returned (if env.Flush = none then some err1 else env.Flush)) := by
  refine ⟨?_, ?_, ?_⟩
  · intro hfi
    simp [formatMPEGTSSegment.close, hfi]
  · intro fi size hfi hstat
    cases hc : env.Close <;> cases hf : env.Flush <;>
      simp [formatMPEGTSSegment.close, hfi, hstat, hc, hf]
  · intro fi err1 err2 hfi hstat hclose
    cases hf : env.Flush <;> simp [formatMPEGTSSegment.close, hfi, hstat, hclose, hf]

/-- C7 (evaluation). On every writer whose file is open, when the stat fails and
the file close succeeds, whatever the flush wrote and returned, `close` panics
on `stat.Size()` after the calls flush (with its writes of the buffered bytes
to the open file), log, stat, close; it returns no error and emits no
notification. -/
theorem close_panics_when_stat_fails_and_file_close_succeeds (s : formatMPEGTSSegment)
    (fi : File) (pending : List Bytes) (write : WriteEnv) (flush : Option Err) (err1 : Err) :
    formatMPEGTSSegment.close
        { Pending := pending, write := write, Flush := flush, Stat := Res.error err1,
          Close := none }
        { s with fi := some fi } =
      { calls := (pending.enumFrom 0).map (fun q => Call.Write fi q.2 (write.Write q.1)) ++
          [Call.bwFlush flush, Call.Log ("closing segment " ++ s.path),
           Call.Stat fi (Res.error err1), Call.Close fi none],
        exit := Exit.panicked } := by
  have hw := writeAll_open write fi pending 0 { s with fi := some fi } rfl
  simp [formatMPEGTSSegment.close, hw]

/-- C6. For a writer without an open file and successive `Write` calls starting
with the `n`-th: when `os.MkdirAll` and `os.Create` succeed in that first call,
the calls made are the log line, `MkdirAll` of the directory of the path
`Encode startNTP pathFormat`, one `Create` of that path, one segment-created
notification, and then one file write per `Write` call, in order, each on the
created file with the bytes of that call, and each `Write` returns the pair
the file write returned.  When `os.MkdirAll` or `os.Create` fails, `Write`
returns 0 and that error, emits no segment-created notification, writes no
bytes, and the writer still has no open file. -/
theorem Write_creates_file_once_then_forwards (env : WriteEnv) (s : formatMPEGTSSegment)
    (n : Nat) (hs : s.fi = none) :
    (∀ (fi : File) (p : Bytes) (ps : List Bytes),
      env.MkdirAll n = none → env.Create n = Res.ok fi →
      formatMPEGTSSegment.writeAll env n s (p :: ps) =
        { calls :=
            [Call.Log ("creating segment " ++ env.Encode s.startNTP env.pathFormat),
             Call.MkdirAll (env.Dir (env.Encode s.startNTP env.pathFormat)) none,
             Call.Create (env.Encode s.startNTP env.pathFormat) (Res.ok fi),
             Call.OnSegmentCreate (env.Encode s.startNTP env.pathFormat)]
            ++ ((p :: ps).enumFrom n).map (fun q => Call.Write fi q.2 (env.Write q.1)),
          s := { s with path := env.Encode s.startNTP env.pathFormat, fi := some fi },
          rets := ((p :: ps).enumFrom n).map (fun q => env.Write q.1) }) ∧
    (∀ (p : Bytes) (err : Err),
      (env.MkdirAll n = some err ∨ (env.MkdirAll n = none ∧ env.Create n = Res.error err)) →
      (s.Write env n p).ret = (0, some err) ∧
      (s.Write env n p).calls.filter Call.isSegmentCreate = [] ∧
      (s.Write env n p).calls.filter Call.isFileWrite = [] ∧
      (s.Write env n p).s.fi = none) := by
  constructor
  · intro fi p ps hmk hcr
    exact writeAll_creates env s n hs fi p ps hmk hcr
  · intro p err h
    rcases h with h | ⟨h1, h2⟩
    · simp [formatMPEGTSSegment.Write, hs, h, List.filter_cons, Call.isSegmentCreate,
        Call.isFileWrite]
    · simp [formatMPEGTSSegment.Write, hs, h1, h2, List.filter_cons, Call.isSegmentCreate,
        Call.isFileWrite]

/-- Witness for C6: two `Write` calls on a new writer, everything succeeds. -/
theorem Write_creates_file_once_then_forwards_witness :
    formatMPEGTSSegment.writeAll exampleWriteEnv 0 exampleNewSegment [[71, 0], [71, 1]] =
      { calls :=
          [Call.Log ("creating segment " ++ "rec/a.ts"),
           Call.MkdirAll "rec" none,
           Call.Create "rec/a.ts" (Res.ok 3),
           Call.OnSegmentCreate "rec/a.ts"]
          ++ [Call.Write 3 [71, 0] (188, none), Call.Write 3 [71, 1] (188, none)],
        s := { exampleNewSegment with path := "rec/a.ts", fi := some 3 },
        rets := [(188, none), (188, none)] } :=
  (Write_creates_file_once_then_forwards exampleWriteEnv exampleNewSegment 0 rfl).1
    3 [71, 0] [[71, 1]] rfl rfl

end Record
